import Mathlib

/-
Verification of the simple-calc interpreter (lexer, Pratt parser, tree-walking
evaluator) against its specification.

Embedding conventions:
* Rust `f64` is modelled by `Rat`.  Every numeric literal and every arithmetic
  step appearing in the verified properties is a small integer, on which IEEE
  double arithmetic is exact, so the rational model agrees with the binary64
  semantics there.  IEEE special values (inf, NaN, signed zero) are outside the
  model; no verified property depends on them.
* A Rust `panic!` / `unimplemented!` (fatal error aborting the process) is
  modelled by `none`.
* `Rc<String>` (the shared string payload of `Expr::String` and
  `Primitive::String`) is modelled as an allocation identifier paired with the
  content.  A fresh identifier is produced exactly where the source calls
  `Rc::new` (inside `Parser::parse_string`); `clone` keeps the identifier, so
  `Rc::ptr_eq` is identifier equality.
* `src/types.rs` declares `Primitive` with `Number` and `Boolean` only, while
  `src/interpreter.rs` constructs and matches `Primitive::String(Rc<String>)`
  (string literal evaluation, `eval_identifier`, the `===` arm).  The embedding
  therefore carries the `String` variant required by `interpreter.rs`; the
  operator impls of `types.rs` are embedded verbatim, their catch-all
  `_ => panic!("invalid type")` arms covering the `String` cases.
* The `HashMap<String, Primitive>` environment is modelled by an association
  list whose `insert` conses and whose `get` takes the most recent binding;
  this is observationally the map behaviour (`last write wins`).
-/

/-! ## token.rs: operators, reserved words, tokens -/

inductive Operator where
  | Plus | Minus | Mul | Div | Mod
  | Equal | ObjectEqual | NotEqual
  | GreaterThan | GreaterThanEqual | LessThan | LessThanEqual
  | LogicalAnd | LogicalOr
  | Not
  | BitAnd | BitOr
  | Assign | AddAssign | SubAssign | MulAssign | DivAssign | ModAssign
deriving DecidableEq, Repr

inductive Reserved where
  | Print | Return | Typeof | If | Else | For | While | Break | Continue | Fn
deriving DecidableEq, Repr

inductive Token where
  | Identifier (s : String)
  | Number (n : Rat)
  | String (s : String)
  | LParen | RParen | LBrace | RBrace
  | Operator (op : Operator)
  | Reserved (r : Reserved)
  | NewLine
deriving DecidableEq, Repr

/-! ## types.rs: the Primitive value model -/

/-- The runtime value.  `types.rs` declares `Number` and `Boolean`;
the `String(Rc<String>)` variant is the one required and used by
`interpreter.rs` (see the header note).  The `id` field models the `Rc`
allocation identity. -/
inductive Primitive where
  | Number (n : Rat)
  | Boolean (b : Bool)
  | String (id : Nat) (s : String)
deriving DecidableEq, Repr

/-- Exact rational addition, written with `mkRat` so that the kernel can
evaluate it (`Rat.add` itself does not reduce); `ratAdd_eq` identifies it
with `Rat`'s `+`. -/
def ratAdd (a b : Rat) : Rat := mkRat (a.num * b.den + b.num * a.den) (a.den * b.den)

theorem ratAdd_eq (a b : Rat) : ratAdd a b = a + b := (Rat.add_def' a b).symm

/-- Exact rational subtraction, kernel-computable. -/
def ratSub (a b : Rat) : Rat := mkRat (a.num * b.den - b.num * a.den) (a.den * b.den)

theorem ratSub_eq (a b : Rat) : ratSub a b = a - b := (Rat.sub_def' a b).symm

/-- Exact rational multiplication, kernel-computable. -/
def ratMul (a b : Rat) : Rat := mkRat (a.num * b.num) (a.den * b.den)

theorem ratMul_eq (a b : Rat) : ratMul a b = a * b := by
  rw [Rat.mul_def, Rat.normalize_eq_mkRat]
  rfl

/-- `impl Add for &Primitive`: numbers add, every other pairing is
`panic!("invalid type")`. -/
def Primitive.add : Primitive → Primitive → Option Primitive
  | .Number l, .Number r => some (.Number (ratAdd l r))
  | _, _ => none

/-- `impl Sub for &Primitive`. -/
def Primitive.sub : Primitive → Primitive → Option Primitive
  | .Number l, .Number r => some (.Number (ratSub l r))
  | _, _ => none

/-- `impl Mul for &Primitive`. -/
def Primitive.mul : Primitive → Primitive → Option Primitive
  | .Number l, .Number r => some (.Number (ratMul l r))
  | _, _ => none

/-- `impl Div for &Primitive`.  (`Rat` division by zero yields 0 where IEEE
yields an infinity or NaN; no verified property divides by zero.) -/
def Primitive.div : Primitive → Primitive → Option Primitive
  | .Number l, .Number r => some (.Number (l / r))
  | _, _ => none

/-- Truncation toward zero, as `f64::trunc` / `as i32` use. -/
def ratTrunc (q : Rat) : Int :=
  if q < 0 then -((-q).floor) else q.floor

/-- `f64`'s `%` is `l - trunc(l / r) * r` (sign of the dividend). -/
def fRem (l r : Rat) : Rat := l - (ratTrunc (l / r) : Rat) * r

/-- `impl Rem for &Primitive`. -/
def Primitive.rem : Primitive → Primitive → Option Primitive
  | .Number l, .Number r => some (.Number (fRem l r))
  | _, _ => none

/-- Rust's saturating `f64 as i32` cast. -/
def asI32 (q : Rat) : Int :=
  max (-(2 ^ 31)) (min (2 ^ 31 - 1) (ratTrunc q))

/-- Two's-complement view of an `i32` value. -/
def toU32 (a : Int) : Nat := (a % (2 ^ 32)).toNat

/-- Back from the two's-complement view. -/
def fromU32 (n : Nat) : Int := if n < 2 ^ 31 then (n : Int) else (n : Int) - 2 ^ 32

/-- `impl BitAnd for &Primitive`: truncate both numbers to `i32`, bitwise and,
result back as a float. -/
def Primitive.bitand : Primitive → Primitive → Option Primitive
  | .Number l, .Number r =>
      some (.Number ((fromU32 (Nat.land (toU32 (asI32 l)) (toU32 (asI32 r))) : Int) : Rat))
  | _, _ => none

/-- `impl BitOr for &Primitive`. -/
def Primitive.bitor : Primitive → Primitive → Option Primitive
  | .Number l, .Number r =>
      some (.Number ((fromU32 (Nat.lor (toU32 (asI32 l)) (toU32 (asI32 r))) : Int) : Rat))
  | _, _ => none

/-- `impl LogicalAnd for &Primitive`: defined on two Booleans only. -/
def Primitive.logicaland : Primitive → Primitive → Option Primitive
  | .Boolean l, .Boolean r => some (.Boolean (l && r))
  | _, _ => none

/-- `impl LogicalOr for &Primitive`: defined on two Booleans only. -/
def Primitive.logicalor : Primitive → Primitive → Option Primitive
  | .Boolean l, .Boolean r => some (.Boolean (l || r))
  | _, _ => none

/-- The derived `PartialEq` of the (string-enabled) `Primitive`:
structural equality; `Rc<String>` compares by content. -/
def Primitive.eq : Primitive → Primitive → Bool
  | .Number l, .Number r => l == r
  | .Boolean l, .Boolean r => l == r
  | .String _ a, .String _ b => a == b
  | _, _ => false

/-- Variant discriminant, in declaration order, for the derived `PartialOrd`. -/
def Primitive.discr : Primitive → Nat
  | .Number _ => 0
  | .Boolean _ => 1
  | .String _ _ => 2

/-- The derived `PartialOrd` of `Primitive` (total on the NaN-free model):
same variants compare componentwise, different variants by declaration order. -/
def Primitive.cmp : Primitive → Primitive → Ordering
  | .Number l, .Number r => compare l r
  | .Boolean l, .Boolean r => compare l r
  | .String _ a, .String _ b => compare a b
  | p, q => compare p.discr q.discr

def Primitive.isNumber : Primitive → Bool
  | .Number _ => true
  | _ => false

def Primitive.isBoolean : Primitive → Bool
  | .Boolean _ => true
  | _ => false

def Primitive.isString : Primitive → Bool
  | .String _ _ => true
  | _ => false

/-! ## parse.rs: AST -/

inductive Expr where
  | Identifier (name : String)
  | Number (n : Rat)
  | String (id : Nat) (value : String)
  | PrefixExpr (operator : Operator) (right : Expr)
  | InfixExpr (left : Expr) (operator : Operator) (right : Expr)
  | PostfixExpr (left : Expr) (operator : Operator)
deriving DecidableEq, Repr

inductive Statement where
  | Return (e : Expr)
  | Print (e : Expr)
  | Expr (e : Expr)
  | Block (stmts : List Statement)
  | If (condition : Expr) (block : Statement) (elseBlock : Option Statement)
deriving Repr

/-! ## interpreter.rs: environment and expression evaluation -/

/-- The interpreter's `global_context.vars` (`HashMap<String, Primitive>`);
the `stack : Vec<Context>` field of `Interpreter` is never pushed or read and
is omitted. -/
structure Context where
  vars : List (String × Primitive)
deriving DecidableEq, Repr

def Context.get (ctx : Context) (name : String) : Option Primitive :=
  (ctx.vars.find? (fun p => p.1 == name)).map (·.2)

def Context.insert (ctx : Context) (name : String) (v : Primitive) : Context :=
  ⟨(name, v) :: ctx.vars⟩

def emptyCtx : Context := ⟨[]⟩

/-- `Interpreter::eval_identifier`: look up, defaulting to `Number(0.0)`;
the per-variant copy returns the stored value unchanged. -/
def evalIdentifier (name : String) (ctx : Context) : Primitive :=
  (ctx.get name).getD (.Number 0)

/-- `Interpreter::assign`: only an `Identifier` left-hand side is legal,
anything else is a fatal error. -/
def assign (left : Expr) (v : Primitive) (ctx : Context) : Option Context :=
  match left with
  | .Identifier name => some (ctx.insert name v)
  | _ => none

/-- The operator dispatch of `Interpreter::eval_prefix_expr` (the operand was
already evaluated): a `Number` operand is required, `+` is the identity, `-`
negates, `!` tests for zero; everything else is fatal. -/
def evalPrefixOp (operator : Operator) (p : Primitive) : Option Primitive :=
  match p with
  | .Number r =>
      match operator with
      | .Plus => some (.Number r)
      | .Minus => some (.Number (-r))
      | .Not => some (.Boolean (r == 0))
      | _ => none
  | _ => none

/-- The operator dispatch of `Interpreter::eval_infix_expr`, after both
operand values have been computed.  `left` is the left operand expression,
needed as the assignment target. -/
def evalInfixOp (left : Expr) (lVal : Primitive) (operator : Operator)
    (rVal : Primitive) (ctx : Context) : Option (Primitive × Context) :=
  match operator with
  | .Plus => (lVal.add rVal).map (·, ctx)
  | .Minus => (lVal.sub rVal).map (·, ctx)
  | .Mul => (lVal.mul rVal).map (·, ctx)
  | .Div => (lVal.div rVal).map (·, ctx)
  | .Mod => (lVal.rem rVal).map (·, ctx)
  | .Equal => some (.Boolean (lVal.eq rVal), ctx)
  | .ObjectEqual =>
      match lVal, rVal with
      | .String li _, .String ri _ => some (.Boolean (li == ri), ctx)
      | _, _ => none
  | .NotEqual => some (.Boolean (!lVal.eq rVal), ctx)
  | .GreaterThan => some (.Boolean (lVal.cmp rVal == .gt), ctx)
  | .GreaterThanEqual => some (.Boolean (lVal.cmp rVal != .lt), ctx)
  | .LessThan => some (.Boolean (lVal.cmp rVal == .lt), ctx)
  | .LessThanEqual => some (.Boolean (lVal.cmp rVal != .gt), ctx)
  | .LogicalAnd => (lVal.logicaland rVal).map (·, ctx)
  | .LogicalOr => (lVal.logicalor rVal).map (·, ctx)
  | .BitAnd => (lVal.bitand rVal).map (·, ctx)
  | .BitOr => (lVal.bitor rVal).map (·, ctx)
  | .Assign => (assign left rVal ctx).map (fun c => (rVal, c))
  | .AddAssign => do
      let w ← lVal.add rVal
      let c ← assign left w ctx
      pure (w, c)
  | .SubAssign => do
      let w ← lVal.sub rVal
      let c ← assign left w ctx
      pure (w, c)
  | .MulAssign => do
      let w ← lVal.mul rVal
      let c ← assign left w ctx
      pure (w, c)
  | .DivAssign => do
      let w ← lVal.div rVal
      let c ← assign left w ctx
      pure (w, c)
  | .ModAssign => do
      let w ← lVal.rem rVal
      let c ← assign left w ctx
      pure (w, c)
  | .Not => none

/-- `Interpreter::eval`.  For an infix expression the left operand is
evaluated first, the right operand second, and only then is the operator
dispatched (`eval_infix_expr` computes `l_val`, then `r_val`, then matches);
a postfix expression hits `unimplemented!` and is fatal. -/
def eval : Expr → Context → Option (Primitive × Context)
  | .Identifier name, ctx => some (evalIdentifier name ctx, ctx)
  | .Number n, ctx => some (.Number n, ctx)
  | .String id s, ctx => some (.String id s, ctx)
  | .PrefixExpr operator right, ctx =>
      match eval right ctx with
      | none => none
      | some (r, ctx1) => (evalPrefixOp operator r).map (·, ctx1)
  | .InfixExpr left operator right, ctx =>
      match eval left ctx with
      | none => none
      | some (lVal, ctx1) =>
          match eval right ctx1 with
          | none => none
          | some (rVal, ctx2) => evalInfixOp left lVal operator rVal ctx2
  | .PostfixExpr _ _, _ => none

/-! ## token.rs: the Lexer

The `Lexer` struct holds the character buffer, a cursor `position`, and a
cached `current` character.  The cache always equals `tokens.get(position)`
at every point where the source reads it (the only writes that bypass the
cache, inside `check_string`, are followed by a cache-restoring `next` before
any read), so the embedding computes `current` from `position`.
Internal scanning loops advance `position` while it stays in bounds, so a
fuel of `tokens.length + 1` never runs out. -/

structure Lexer where
  tokens : List Char
  position : Nat
deriving Repr

def Lexer.current (l : Lexer) : Option Char := l.tokens[l.position]?

def Lexer.peek (l : Lexer) : Option Char := l.tokens[l.position + 1]?

def Lexer.next (l : Lexer) : Lexer := { l with position := l.position + 1 }

/-- `is_space`: the whitespace skipped between tokens (newline excluded). -/
def isSpace (c : Char) : Bool := c == ' ' || c == '\t'

/-- `is_part_of_number`. -/
def isPartOfNumber (c : Char) : Bool := c.isDigit || c == '.'

def skipWsAux : Nat → Lexer → Lexer
  | 0, l => l
  | f + 1, l =>
      match l.current with
      | some c => if isSpace c then skipWsAux f l.next else l
      | none => l

/-- `Lexer::skip_whitespace`. -/
def Lexer.skipWhitespace (l : Lexer) : Lexer := skipWsAux (l.tokens.length + 1) l

/-- The pure comparison part of `Lexer::check_string`: every character of `s`
must match the buffer starting at `position`. -/
def matchesAt (l : Lexer) : List Char → Nat → Bool
  | [], _ => true
  | c :: rest, i => (l.tokens[l.position + i]? == some c) && matchesAt l rest (i + 1)

/-- `Lexer::check_string`: on success the cursor advances by `s.len() - 1`,
on failure it is untouched. -/
def checkString (l : Lexer) (s : List Char) : Bool × Lexer :=
  if matchesAt l s 0 then
    (true, { l with position := l.position + (s.length - 1) })
  else (false, l)

/-- `Lexer::check_string_with_space`: the keyword must be followed by a
space. -/
def checkStringWithSpace (l : Lexer) (s : List Char) : Bool × Lexer :=
  checkString l (s ++ [' '])

/-- `Lexer::reserved`: recognize a reserved word by its first character. -/
def Lexer.reserved (l : Lexer) : Option Token × Lexer :=
  match l.current with
  | none => (none, l)
  | some 'p' =>
      let (ok, l1) := checkStringWithSpace l "print".toList
      (if ok then some (Token.Reserved .Print) else none, l1)
  | some 'r' =>
      let (ok, l1) := checkStringWithSpace l "return".toList
      (if ok then some (Token.Reserved .Return) else none, l1)
  | some 'i' =>
      let (ok, l1) := checkStringWithSpace l "if".toList
      (if ok then some (Token.Reserved .If) else none, l1)
  | some 'e' =>
      let (ok, l1) := checkString l "else".toList
      (if ok then some (Token.Reserved .Else) else none, l1)
  | some 'f' =>
      let (ok, l1) := checkStringWithSpace l "for".toList
      if ok then (some (Token.Reserved .For), l1)
      else
        let (ok2, l2) := checkStringWithSpace l1 "fn".toList
        (if ok2 then some (Token.Reserved .Fn) else none, l2)
  | some 't' =>
      let (ok, l1) := checkStringWithSpace l "typeof".toList
      (if ok then some (Token.Reserved .Typeof) else none, l1)
  | some _ => (none, l)

/-- `Lexer::new_line`. -/
def Lexer.newLine (l : Lexer) : Option Token × Lexer :=
  match l.current with
  | some c => (if c = '\n' then some Token.NewLine else none, l)
  | none => (none, l)

/-- `Lexer::paren`. -/
def Lexer.paren (l : Lexer) : Option Token × Lexer :=
  match l.current with
  | some '(' => (some Token.LParen, l)
  | some ')' => (some Token.RParen, l)
  | some '\x7b' => (some Token.LBrace, l)
  | some '\x7d' => (some Token.RBrace, l)
  | _ => (none, l)

/-- Decimal digits to a natural number. -/
def digitsToNat (cs : List Char) : Nat :=
  cs.foldl (fun a c => a * 10 + (c.toNat - 48)) 0

/-- Model of `<f64 as FromStr>::from_str` restricted to the runs the lexer
collects: an arbitrary first character followed by digits and dots.  Accepted
forms are an optional sign followed by digits with at most one dot and at
least one digit; the value is the exact decimal (exact also in binary64 for
every literal appearing in the verified properties, which are small
integers). -/
def parseF64 (cs : List Char) : Option Rat :=
  let sb : Int × List Char :=
    match cs with
    | '+' :: rest => (1, rest)
    | '-' :: rest => (-1, rest)
    | _ => (1, cs)
  let sign := sb.1
  let body := sb.2
  if body.all (fun c => c.isDigit || c == '.') then
    match (body.filter (fun c => c == '.')).length with
    | 0 =>
        if body.isEmpty then none
        else some ((sign * (digitsToNat body : Int) : Int) : Rat)
    | 1 =>
        let intPart := body.takeWhile (fun c => c != '.')
        let fracPart := (body.dropWhile (fun c => c != '.')).tail
        if intPart.isEmpty && fracPart.isEmpty then none
        else some (mkRat
          (sign * ((digitsToNat intPart * 10 ^ fracPart.length + digitsToNat fracPart : Nat) : Int))
          (10 ^ fracPart.length))
    | _ => none
  else none

def numberAux : Nat → Lexer → List Char → List Char × Lexer
  | 0, l, acc => (acc, l)
  | f + 1, l, acc =>
      match l.peek with
      | some c => if isPartOfNumber c then numberAux f l.next (acc ++ [c]) else (acc, l)
      | none => (acc, l)

/-- `Lexer::number`: collect the current character plus the following
digit-and-dot run (advancing the cursor), then try to parse it; the cursor
movement persists even when the parse fails. -/
def Lexer.number (l : Lexer) : Option Token × Lexer :=
  match l.current with
  | none => (none, l)
  | some c =>
      let (cs, l1) := numberAux (l.tokens.length + 1) l [c]
      ((parseF64 cs).map Token.Number, l1)

/-- `Lexer::tokenize_operator`: first matching candidate wins; a failed
candidate leaves the cursor untouched. -/
def tokenizeOperator (l : Lexer) : List (List Char × Operator) → Option Token × Lexer
  | [] => (none, l)
  | (s, op) :: rest =>
      let (ok, l1) := checkString l s
      if ok then (some (Token.Operator op), l1) else tokenizeOperator l rest

/-- `Lexer::operator`: greedy longest-match among same-prefix candidates. -/
def Lexer.operator (l : Lexer) : Option Token × Lexer :=
  match l.current with
  | some '+' => tokenizeOperator l [("+=".toList, .AddAssign), ("+".toList, .Plus)]
  | some '-' => tokenizeOperator l [("-=".toList, .SubAssign), ("-".toList, .Minus)]
  | some '*' => tokenizeOperator l [("*=".toList, .MulAssign), ("*".toList, .Mul)]
  | some '/' => tokenizeOperator l [("/=".toList, .DivAssign), ("/".toList, .Div)]
  | some '%' => tokenizeOperator l [("%=".toList, .ModAssign), ("%".toList, .Mod)]
  | some '=' => tokenizeOperator l
      [("===".toList, .ObjectEqual), ("==".toList, .Equal), ("=".toList, .Assign)]
  | some '>' => tokenizeOperator l [(">=".toList, .GreaterThanEqual), (">".toList, .GreaterThan)]
  | some '<' => tokenizeOperator l [("<=".toList, .LessThanEqual), ("<".toList, .LessThan)]
  | some '&' => tokenizeOperator l [("&&".toList, .LogicalAnd), ("&".toList, .BitAnd)]
  | some '|' => tokenizeOperator l [("||".toList, .LogicalOr), ("|".toList, .BitOr)]
  | some '!' => tokenizeOperator l [("!=".toList, .NotEqual), ("!".toList, .Not)]
  | _ => (none, l)

def stringAux : Nat → Lexer → List Char → List Char × Lexer
  | 0, l, acc => (acc, l)
  | f + 1, l, acc =>
      match l.peek with
      | some c => if c ≠ '"' then stringAux f l.next (acc ++ [c]) else (acc, l)
      | none => (acc, l)

/-- `Lexer::string_literal`: content strictly between the quotes, no escape
processing; the closing quote is stepped onto by the trailing `next`. -/
def Lexer.stringLiteral (l : Lexer) : Option Token × Lexer :=
  match l.current with
  | some c =>
      if c = '"' then
        let (cs, l1) := stringAux (l.tokens.length + 1) l []
        (some (Token.String (String.mk cs)), l1.next)
      else (none, l)
  | none => (none, l)

def identAux : Nat → Lexer → List Char → List Char × Lexer
  | 0, l, acc => (acc, l)
  | f + 1, l, acc =>
      match l.peek with
      | some c => if !c.isWhitespace then identAux f l.next (acc ++ [c]) else (acc, l)
      | none => (acc, l)

/-- `Lexer::identifier`: maximal run of non-whitespace characters (Rust's
`char::is_whitespace`, which agrees with `Char.isWhitespace` on ASCII). -/
def Lexer.identifier (l : Lexer) : Option Token × Lexer :=
  match l.current with
  | some c =>
      let (cs, l1) := identAux (l.tokens.length + 1) l [c]
      (some (Token.Identifier (String.mk cs)), l1)
  | none => (none, l)

/-- `Lexer::token`: skip whitespace, then try the recognizers in their fixed
order, each running on the state the previous one left (a failed `number`
keeps its cursor movement), then advance once. -/
def Lexer.token (l : Lexer) : Option Token × Lexer :=
  let l0 := l.skipWhitespace
  let r :=
    let (t1, l1) := l0.number
    match t1 with
    | some t => (some t, l1)
    | none =>
    let (t2, l2) := l1.newLine
    match t2 with
    | some t => (some t, l2)
    | none =>
    let (t3, l3) := l2.paren
    match t3 with
    | some t => (some t, l3)
    | none =>
    let (t4, l4) := l3.reserved
    match t4 with
    | some t => (some t, l4)
    | none =>
    let (t5, l5) := l4.operator
    match t5 with
    | some t => (some t, l5)
    | none =>
    let (t6, l6) := l5.stringLiteral
    match t6 with
    | some t => (some t, l6)
    | none => l6.identifier
  (r.1, r.2.next)

def lexAux : Nat → Lexer → List Token
  | 0, _ => []
  | f + 1, l =>
      match l.token with
      | (some t, l1) => t :: lexAux f l1
      | (none, _) => []

/-- The token stream of a buffer: `token()` until it yields nothing, as the
parser pulls it.  Each produced token advances the cursor, so
`length + 1` fuel suffices. -/
def lex (buf : List Char) : List Token := lexAux (buf.length + 1) ⟨buf, 0⟩

/-! ## parse.rs: precedence and the Pratt parser

The `Parser` struct owns the lexer plus a two-token lookahead
(`current`, `peek`).  Since the lexer is pulled deterministically, the
embedding carries the remaining token stream as a list whose head is
`current` and whose second element is `peek`, plus a counter supplying the
fresh `Rc` allocation identifiers that `parse_string` creates.

Failure of a parse function is modelled as a stateless `none`.  In the
source a failing call can leave the parser mid-stream, but every place that
continues after a failure (`parse_if_statement`'s condition and else-block,
the peek checks of `parse_print_statement` / `parse_return_statement` /
`parse_grouped_expr`) still returns `None` for the enclosing statement, so
the values produced by `parse` are unaffected; the else-block case can only
fail at its initial `current != LBrace` check (current is then the `else`
token), consuming nothing.

The mutual family is fuelled; the fuel drops by one on every nested call
and each cycle through `parse_expr` or a statement list consumes at least
one token, so the call depth — hence the fuel needed — is bounded by a small
multiple of the token count.  `parsePostfix` always yields `none`
(the match in the source is commented out); its `Operator::from(current)`
read would panic on a non-operator token, which is unreachable because the
climb loop only steps onto tokens of positive precedence, and those are
operator tokens. -/

inductive Precedence where
  | Lowest | Assign | LogicalOr | LogicalAnd | BitOr | BitAnd
  | Equality | Compare | Sum | Product | Prefix | Postfix
deriving DecidableEq, Repr

/-- Declaration order, backing the derived `PartialOrd`. -/
def Precedence.toNat : Precedence → Nat
  | .Lowest => 0 | .Assign => 1 | .LogicalOr => 2 | .LogicalAnd => 3
  | .BitOr => 4 | .BitAnd => 5 | .Equality => 6 | .Compare => 7
  | .Sum => 8 | .Product => 9 | .Prefix => 10 | .Postfix => 11

def Precedence.lt (a b : Precedence) : Bool := a.toNat < b.toNat

/-- `impl From<&Token> for Precedence`: non-operator tokens are `Lowest`. -/
def precedenceOf (t : Token) : Precedence :=
  match t with
  | .Operator op =>
      match op with
      | .Assign | .AddAssign | .SubAssign | .MulAssign | .DivAssign | .ModAssign =>
          .Assign
      | .BitOr => .BitOr
      | .BitAnd => .BitAnd
      | .LogicalOr => .LogicalOr
      | .LogicalAnd => .LogicalAnd
      | .Equal | .NotEqual => .Equality
      | .GreaterThan | .GreaterThanEqual | .LessThan | .LessThanEqual | .ObjectEqual =>
          .Compare
      | .Plus | .Minus => .Sum
      | .Div | .Mul | .Mod => .Product
      | .Not => .Prefix
  | _ => .Lowest

/-- `impl From<&Token> for Operator` panics on a non-operator token; the
panic is unreachable at every call site (each guards on `Token::Operator`). -/
def operatorFrom (t : Token) : Option Operator :=
  match t with
  | .Operator op => some op
  | _ => none

structure ParserState where
  toks : List Token
  fresh : Nat
deriving Repr

def curTok (st : ParserState) : Option Token := st.toks.head?

/-- `Parser::next`. -/
def pnext (st : ParserState) : ParserState := { st with toks := st.toks.tail }

def peekTok (st : ParserState) : Option Token := st.toks.tail.head?

/-- `Parser::is_peek`. -/
def isPeek (st : ParserState) (t : Token) : Bool := peekTok st == some t

/-- `Parser::peeking_eof`. -/
def peekingEof (st : ParserState) : Bool := (peekTok st).isNone

/-- `Parser::peeking_precedence`. -/
def peekingPrecedence (st : ParserState) : Precedence :=
  match peekTok st with
  | none => .Lowest
  | some t => precedenceOf t

/-- `Parser::skip_newline_eof` on the token stream: advance while the peek
is a newline or the stream is exhausted, stopping once `current` is gone. -/
def skipNewlineEofToks : List Token → List Token
  | [] => []
  | t :: rest =>
      match rest.head? with
      | some Token.NewLine => skipNewlineEofToks rest
      | some _ => t :: rest
      | none => rest

def skipNewlineEofSt (st : ParserState) : ParserState :=
  { st with toks := skipNewlineEofToks st.toks }

/-- `Parser::parse_number` (reads `current`, does not advance). -/
def parseNumber (st : ParserState) : Option (Expr × ParserState) :=
  match curTok st with
  | some (.Number n) => some (.Number n, st)
  | _ => none

/-- `Parser::parse_string`: wraps the literal in a fresh `Rc` allocation
(`s.clone().into()`); does not advance. -/
def parseString (st : ParserState) : Option (Expr × ParserState) :=
  match curTok st with
  | some (.String s) => some (.String st.fresh s, { st with fresh := st.fresh + 1 })
  | _ => none

/-- `Parser::parse_postfix`: the operator match is commented out, so no
postfix continuation is ever produced. -/
def parsePostfix (_left : Expr) (st : ParserState) : Option (Expr × ParserState) :=
  match curTok st with
  | none => none
  | some _ => none

mutual

/-- `Parser::parse`: parse statements while a current token remains;
`?` aborts the whole program on the first failing statement. -/
def parseProgram : Nat → ParserState → Option (List Statement × ParserState)
  | 0, _ => none
  | fuel + 1, st =>
      match curTok st with
      | none => some ([], st)
      | some _ =>
          match parseStatement fuel st with
          | none => none
          | some (stmt, st1) =>
              let st2 := pnext (skipNewlineEofSt st1)
              match parseProgram fuel st2 with
              | none => none
              | some (rest, st3) => some (stmt :: rest, st3)

/-- `Parser::parse_statement`. -/
def parseStatement : Nat → ParserState → Option (Statement × ParserState)
  | 0, _ => none
  | fuel + 1, st =>
      match curTok st with
      | none => none
      | some (.Reserved .Print) => parsePrintStatement fuel st
      | some (.Reserved .Return) => parseReturnStatement fuel st
      | some (.Reserved .If) => parseIfStatement fuel st
      | some _ =>
          match parseExpr fuel .Lowest st with
          | none => none
          | some (e, st1) => some (Statement.Expr e, st1)

/-- `Parser::parse_print_statement`: the expression must be followed by a
newline, end of input, or a closing brace. -/
def parsePrintStatement : Nat → ParserState → Option (Statement × ParserState)
  | 0, _ => none
  | fuel + 1, st =>
      match curTok st with
      | none => none
      | some t =>
          if t = .Reserved .Print then
            let st1 := pnext st
            match parseExpr fuel .Lowest st1 with
            | none => none
            | some (e, st2) =>
                if isPeek st2 .NewLine || peekingEof st2 || isPeek st2 .RBrace then
                  some (.Print e, st2)
                else none
          else none

/-- `Parser::parse_return_statement`: newline or end of input only. -/
def parseReturnStatement : Nat → ParserState → Option (Statement × ParserState)
  | 0, _ => none
  | fuel + 1, st =>
      match curTok st with
      | none => none
      | some t =>
          if t = .Reserved .Return then
            let st1 := pnext st
            match parseExpr fuel .Lowest st1 with
            | none => none
            | some (e, st2) =>
                if isPeek st2 .NewLine || peekingEof st2 then
                  some (.Return e, st2)
                else none
          else none

/-- `Parser::parse_if_statement`. -/
def parseIfStatement : Nat → ParserState → Option (Statement × ParserState)
  | 0, _ => none
  | fuel + 1, st =>
      match curTok st with
      | none => none
      | some t =>
          if t = .Reserved .If then
            let st1 := pnext st
            match parseExpr fuel .Lowest st1 with
            | none => none
            | some (cond, st2) =>
                let st3 := pnext st2
                match parseBlock fuel st3 with
                | none => none
                | some (blk, st4) =>
                    if isPeek st4 (.Reserved .Else) then
                      let st5 := pnext st4
                      match parseBlock fuel st5 with
                      | some (eb, st6) => some (.If cond blk (some eb), st6)
                      | none => some (.If cond blk none, st5)
                    else some (.If cond blk none, st4)
          else none

/-- `Parser::parse_block`: requires `current` to be `{`; parses statements
until `}` is the current or peek token, or the peek is exhausted. -/
def parseBlock : Nat → ParserState → Option (Statement × ParserState)
  | 0, _ => none
  | fuel + 1, st =>
      match curTok st with
      | none => none
      | some t =>
          if t = .LBrace then
            parseBlockLoop fuel [] (pnext (skipNewlineEofSt st))
          else none

/-- The statement loop inside `Parser::parse_block`; the `current.as_ref()?`
in the loop condition makes an exhausted stream a failure. -/
def parseBlockLoop : Nat → List Statement → ParserState → Option (Statement × ParserState)
  | 0, _, _ => none
  | fuel + 1, acc, st =>
      match curTok st with
      | none => none
      | some t =>
          if t ≠ .RBrace && !isPeek st .RBrace && !peekingEof st then
            match parseStatement fuel st with
            | none => none
            | some (stmt, st1) =>
                parseBlockLoop fuel (acc ++ [stmt]) (pnext (skipNewlineEofSt st1))
          else some (.Block acc, st)

/-- `Parser::parse_expr`: precedence climbing — parse a prefix term, then
continue while the peek's precedence is strictly greater. -/
def parseExpr : Nat → Precedence → ParserState → Option (Expr × ParserState)
  | 0, _, _ => none
  | fuel + 1, prec, st =>
      match parsePrefix fuel st with
      | none => none
      | some (left, st1) => parseExprLoop fuel prec left st1

/-- The climbing loop of `Parser::parse_expr`. -/
def parseExprLoop : Nat → Precedence → Expr → ParserState → Option (Expr × ParserState)
  | 0, _, _, _ => none
  | fuel + 1, prec, left, st =>
      if prec.lt (peekingPrecedence st) then
        let st1 := pnext st
        match parsePostfix left st1 with
        | some (l2, st2) => parseExprLoop fuel prec l2 st2
        | none =>
            match parseInfix fuel left st1 with
            | none => none
            | some (l2, st2) => parseExprLoop fuel prec l2 st2
      else some (left, st)

/-- `Parser::parse_prefix`. -/
def parsePrefix : Nat → ParserState → Option (Expr × ParserState)
  | 0, _ => none
  | fuel + 1, st =>
      match curTok st with
      | none => none
      | some (.Operator .Plus) => parsePrefixExpr fuel st
      | some (.Operator .Minus) => parsePrefixExpr fuel st
      | some (.Operator .Not) => parsePrefixExpr fuel st
      | some (.Identifier name) => some (.Identifier name, st)
      | some (.Number _) => parseNumber st
      | some (.String _) => parseString st
      | some .LParen => parseGroupedExpr fuel st
      | some _ => none

/-- `Parser::parse_prefix_expr`: the operand is parsed at `Prefix`
precedence; only `+ - !` build a prefix expression. -/
def parsePrefixExpr : Nat → ParserState → Option (Expr × ParserState)
  | 0, _ => none
  | fuel + 1, st =>
      match curTok st with
      | none => none
      | some t =>
          match operatorFrom t with
          | none => none
          | some operator =>
              let st1 := pnext st
              let r := parseExpr fuel .Prefix st1
              match operator with
              | .Plus | .Minus | .Not =>
                  match r with
                  | some (right, st2) => some (.PrefixExpr operator right, st2)
                  | none => none
              | _ => none

/-- `Parser::parse_grouped_expr`: requires `)` as the peek after the inner
expression. -/
def parseGroupedExpr : Nat → ParserState → Option (Expr × ParserState)
  | 0, _ => none
  | fuel + 1, st =>
      let st1 := pnext st
      match parseExpr fuel .Lowest st1 with
      | none => none
      | some (e, st2) =>
          if isPeek st2 .RParen then some (e, pnext st2) else none

/-- `Parser::parse_infix`: the listed operators start an infix expression;
any other token (the only unlisted operator is `!`) returns the left
operand unchanged. -/
def parseInfix : Nat → Expr → ParserState → Option (Expr × ParserState)
  | 0, _, _ => none
  | fuel + 1, left, st =>
      match curTok st with
      | none => none
      | some (.Operator op) =>
          match op with
          | .Plus | .Minus | .Mul | .Div | .Mod
          | .Equal | .NotEqual
          | .GreaterThan | .GreaterThanEqual | .LessThan | .LessThanEqual
          | .ObjectEqual
          | .LogicalAnd | .LogicalOr
          | .Assign | .AddAssign | .SubAssign | .MulAssign | .DivAssign | .ModAssign
          | .BitAnd | .BitOr => parseInfixExpr fuel left st
          | _ => some (left, st)
      | some _ => some (left, st)

/-- `Parser::parse_infix_expr`: the right operand is parsed at the
operator's own precedence. -/
def parseInfixExpr : Nat → Expr → ParserState → Option (Expr × ParserState)
  | 0, _, _ => none
  | fuel + 1, left, st =>
      match curTok st with
      | none => none
      | some t =>
          match operatorFrom t with
          | none => none
          | some operator =>
              let precedence := precedenceOf t
              let st1 := pnext st
              match parseExpr fuel precedence st1 with
              | none => none
              | some (right, st2) => some (.InfixExpr left operator right, st2)

end

/-- Fuel for the whole parse: the nesting depth of the call tree grows by a
handful of frames per consumed token, far below 16. -/
def parserFuel (ts : List Token) : Nat := 16 * ts.length + 16

/-- The parser entry point on a token stream. -/
def parse (ts : List Token) : Option (List Statement) :=
  (parseProgram (parserFuel ts) ⟨ts, 0⟩).map (·.1)

/-- Lex and parse one source buffer, as both host modes do line by line. -/
def parseBuf (buf : String) : Option (List Statement) := parse (lex buf.toList)

/-- Harness for the host loop on a buffer holding a single expression
statement: parse it and evaluate the expression in an empty environment. -/
def evalSingle (buf : String) : Option Primitive :=
  match parseBuf buf with
  | some [Statement.Expr e] => (eval e emptyCtx).map (·.1)
  | _ => none

/-! ## Claim theorems -/

/-- C1 counterexample: `+` on two String primitives is a fatal type error
(the `Add` impl admits only two Numbers), not concatenation — evaluating
`"a" + "b"` aborts instead of producing the string `ab`. -/
theorem string_plus_string_fatal :
    eval (.InfixExpr (.String 0 "a") .Plus (.String 1 "b")) emptyCtx = none ∧
    evalSingle "\"a\" + \"b\"" = none :=
  ⟨rfl, rfl⟩

/-- C1 (amended): `+` on two Numbers adds the payloads; every other
operand-type pairing, two Strings included, is a fatal type error. -/
theorem plus_semantics :
    (∀ (a b : Rat) (ctx : Context),
        eval (.InfixExpr (.Number a) .Plus (.Number b)) ctx =
          some (.Number (a + b), ctx)) ∧
    (∀ p q : Primitive, ¬(p.isNumber ∧ q.isNumber) → p.add q = none) := by
  constructor
  · intro a b ctx
    simp [eval, evalInfixOp, Primitive.add, ratAdd_eq]
  · intro p q h
    cases p <;> cases q <;> simp_all [Primitive.isNumber, Primitive.add]

/-- C1 witness: the amended statement at concrete inputs. -/
theorem plus_semantics_witness :
    eval (.InfixExpr (.Number 2) .Plus (.Number 3)) emptyCtx =
        some (.Number 5, emptyCtx) ∧
    Primitive.add (.Boolean true) (.Number 1) = none := by
  constructor
  · rw [plus_semantics.1 2 3 emptyCtx]
    norm_num
  · exact plus_semantics.2 _ _ (by simp [Primitive.isNumber])

/-- C2 counterexample: `a = b = 1` parses left-nested, as
`(a = b) = 1` — the right operand of the outer assignment is `1`,
not `b = 1`. -/
theorem assign_chain_left_nested :
    parseBuf "a = b = 1" =
      some [Statement.Expr (.InfixExpr
        (.InfixExpr (.Identifier "a") .Assign (.Identifier "b"))
        .Assign (.Number 1))] ∧
    parseBuf "a = b = 1" ≠
      some [Statement.Expr (.InfixExpr (.Identifier "a") .Assign
        (.InfixExpr (.Identifier "b") .Assign (.Number 1)))] := by
  have e : parseBuf "a = b = 1" =
      some [Statement.Expr (.InfixExpr
        (.InfixExpr (.Identifier "a") .Assign (.Identifier "b"))
        .Assign (.Number 1))] := rfl
  refine ⟨e, ?_⟩
  rw [e]
  simp

/-- C2 (amended): the climb continues only on strictly greater precedence,
so precedence ties stop the loop and every binary operator — assignment
included — associates to the left: `a = b = 1` parses as `(a = b) = 1` and
`1 - 2 - 3` parses as `(1 - 2) - 3`, evaluating to `-4`. -/
theorem binop_left_assoc :
    (∀ (fuel : Nat) (prec : Precedence) (left : Expr) (st : ParserState),
        Precedence.lt prec (peekingPrecedence st) = false →
        parseExprLoop (fuel + 1) prec left st = some (left, st)) ∧
    parseBuf "a = b = 1" =
      some [Statement.Expr (.InfixExpr
        (.InfixExpr (.Identifier "a") .Assign (.Identifier "b"))
        .Assign (.Number 1))] ∧
    parseBuf "1 - 2 - 3" =
      some [Statement.Expr (.InfixExpr
        (.InfixExpr (.Number 1) .Minus (.Number 2)) .Minus (.Number 3))] ∧
    evalSingle "1 - 2 - 3" = some (.Number (-4)) := by
  refine ⟨?_, rfl, rfl, rfl⟩
  intro fuel prec left st h
  simp [parseExprLoop, h]

/-- C2 witness: the tie-stopping clause at a concrete state (peek is an
`=` token, minimum precedence already `Assign`). -/
theorem binop_left_assoc_witness :
    Precedence.lt .Assign
        (peekingPrecedence ⟨[Token.Identifier "b", Token.Operator .Assign], 0⟩) = false ∧
    parseExprLoop 1 .Assign (.Identifier "b")
        ⟨[Token.Identifier "b", Token.Operator .Assign], 0⟩ =
      some (.Identifier "b", ⟨[Token.Identifier "b", Token.Operator .Assign], 0⟩) :=
  ⟨rfl, binop_left_assoc.1 0 .Assign (.Identifier "b")
      ⟨[Token.Identifier "b", Token.Operator .Assign], 0⟩ rfl⟩

/-- C3: `x = e` evaluates `e`, stores its value under `x`, and itself
yields that value; `x -= e` applies subtraction to the current value of `x`
and the right operand, stores the result, and yields it (so after `x = 10`,
`x -= 3` yields 7 and reading `x` yields 7). -/
theorem assignment_semantics :
    (∀ (x : String) (e : Expr) (ctx : Context) (v : Primitive) (ctx1 : Context),
        eval e ctx = some (v, ctx1) →
        eval (.InfixExpr (.Identifier x) .Assign e) ctx = some (v, ctx1.insert x v) ∧
        (ctx1.insert x v).get x = some v) ∧
    (∀ (x : String) (e : Expr) (ctx : Context) (v : Primitive) (ctx1 : Context)
        (w : Primitive),
        eval e ctx = some (v, ctx1) →
        (evalIdentifier x ctx).sub v = some w →
        eval (.InfixExpr (.Identifier x) .SubAssign e) ctx = some (w, ctx1.insert x w) ∧
        (ctx1.insert x w).get x = some w) := by
  constructor
  · intro x e ctx v ctx1 h
    constructor
    · simp [eval, evalInfixOp, assign, h]
    · simp [Context.get, Context.insert, List.find?]
  · intro x e ctx v ctx1 w h hw
    constructor
    · simp [eval, evalInfixOp, assign, h, hw]
    · simp [Context.get, Context.insert, List.find?]

/-- C3 witness: `x = 10` then `x -= 3` in the resulting environment. -/
theorem assignment_semantics_witness :
    eval (.InfixExpr (.Identifier "x") .Assign (.Number 10)) emptyCtx =
        some (.Number 10, emptyCtx.insert "x" (.Number 10)) ∧
    eval (.InfixExpr (.Identifier "x") .SubAssign (.Number 3))
          (emptyCtx.insert "x" (.Number 10)) =
        some (.Number 7, (emptyCtx.insert "x" (.Number 10)).insert "x" (.Number 7)) ∧
    ((emptyCtx.insert "x" (.Number 10)).insert "x" (.Number 7)).get "x" =
        some (.Number 7) := by
  have h1 := (assignment_semantics.1 "x" (.Number 10) emptyCtx (.Number 10) emptyCtx rfl).1
  have h2 := assignment_semantics.2 "x" (.Number 3) (emptyCtx.insert "x" (.Number 10))
      (.Number 3) (emptyCtx.insert "x" (.Number 10)) (.Number 7) rfl (by rfl)
  exact ⟨h1, h2.1, h2.2⟩

/-- C4 counterexample: `(1 + 2) * 3` does not evaluate to `Number 6` — it
does not evaluate at all: the buffer fails to parse (and a fortiori yields
no value). -/
theorem paren_product_parse_fails :
    parseBuf "(1 + 2) * 3" = none ∧ evalSingle "(1 + 2) * 3" = none :=
  ⟨rfl, rfl⟩

/-- C4 (amended): `1 + 2 * 3` evaluates to 7 (multiplication binds
tighter) and `-2 + 3` to 1; `-a + b` groups as `(-a) + b` with the unary
minus at `Prefix` precedence.  `(1 + 2) * 3` fails to parse — the number
recognizer consumes `(` before `1`, making `1` an identifier token and
leaving a stray `)` — while the parenthesized `( 1 + 2) * 3` parses and
evaluates to 9, not 6. -/
theorem precedence_eval_results :
    evalSingle "1 + 2 * 3" = some (.Number 7) ∧
    evalSingle "( 1 + 2) * 3" = some (.Number 9) ∧
    evalSingle "-2 + 3" = some (.Number 1) ∧
    parseBuf "-a + b" =
      some [Statement.Expr (.InfixExpr
        (.PrefixExpr .Minus (.Identifier "a")) .Plus (.Identifier "b"))] ∧
    lex "(1 + 2) * 3".toList =
      [Token.Identifier "1", .Operator .Plus, .Number 2, .RParen,
       .Operator .Mul, .Number 3] :=
  ⟨rfl, rfl, rfl, rfl, rfl⟩

/-- C5: `===` is defined exactly on two String operands and compares the
shared allocation, not the content: the same allocation compared with
itself is true; two independently parsed literals of equal content get
distinct allocations, so `"x" === "x"` is false while `"x" == "x"` is
true; a non-String operand pair is a fatal type error. -/
theorem object_equality_semantics :
    (∀ (i j : Nat) (c d : String) (ctx : Context),
        eval (.InfixExpr (.String i c) .ObjectEqual (.String j d)) ctx =
          some (.Boolean (i == j), ctx)) ∧
    (∀ (l : Expr) (p q : Primitive) (ctx : Context),
        ¬(p.isString ∧ q.isString) → evalInfixOp l p .ObjectEqual q ctx = none) ∧
    (∀ (i : Nat) (c : String) (ctx : Context),
        eval (.InfixExpr (.String i c) .ObjectEqual (.String i c)) ctx =
          some (.Boolean true, ctx)) ∧
    eval (.InfixExpr (.Identifier "x") .ObjectEqual (.Identifier "x"))
        (emptyCtx.insert "x" (.String 0 "a")) =
      some (.Boolean true, emptyCtx.insert "x" (.String 0 "a")) ∧
    parseBuf "\"x\" === \"x\"" =
      some [Statement.Expr (.InfixExpr (.String 0 "x") .ObjectEqual (.String 1 "x"))] ∧
    evalSingle "\"x\" === \"x\"" = some (.Boolean false) ∧
    evalSingle "\"x\" == \"x\"" = some (.Boolean true) := by
  refine ⟨?_, ?_, ?_, rfl, rfl, rfl, rfl⟩
  · intro i j c d ctx
    simp [eval, evalInfixOp]
  · intro l p q ctx h
    cases p <;> cases q <;> simp_all [Primitive.isString, evalInfixOp]
  · intro i c ctx
    simp [eval, evalInfixOp]

/-- C5 witness: the universal clauses at concrete inputs. -/
theorem object_equality_semantics_witness :
    eval (.InfixExpr (.String 4 "a") .ObjectEqual (.String 7 "a")) emptyCtx =
        some (.Boolean false, emptyCtx) ∧
    evalInfixOp (.Number 1) (.Number 1) .ObjectEqual (.Number 2) emptyCtx = none := by
  constructor
  · rw [object_equality_semantics.1 4 7 "a" "a" emptyCtx]
    rfl
  · exact object_equality_semantics.2.1 _ _ _ _ (by simp [Primitive.isString])

/-- C6: `&&` and `||` always evaluate both operands — the right operand is
evaluated (with its state effects kept) even when the left value already
settles the result — and both values must be Boolean, anything else being a
fatal type error.  Concretely, `1 == 2 && (x = (1 == 1))` yields false yet
stores `true` under `x`. -/
theorem logical_ops_no_short_circuit :
    (∀ (l r : Expr) (ctx : Context) (lv : Primitive) (ctx1 : Context),
        eval l ctx = some (lv, ctx1) →
        (eval (.InfixExpr l .LogicalAnd r) ctx =
          match eval r ctx1 with
          | none => none
          | some (rv, ctx2) => (lv.logicaland rv).map (·, ctx2)) ∧
        (eval (.InfixExpr l .LogicalOr r) ctx =
          match eval r ctx1 with
          | none => none
          | some (rv, ctx2) => (lv.logicalor rv).map (·, ctx2))) ∧
    (∀ p q : Primitive, ¬(p.isBoolean ∧ q.isBoolean) →
        p.logicaland q = none ∧ p.logicalor q = none) ∧
    eval (.InfixExpr (.InfixExpr (.Number 1) .Equal (.Number 2)) .LogicalAnd
          (.InfixExpr (.Identifier "x") .Assign (.InfixExpr (.Number 1) .Equal (.Number 1))))
        emptyCtx =
      some (.Boolean false, emptyCtx.insert "x" (.Boolean true)) := by
  refine ⟨?_, ?_, rfl⟩
  · intro l r ctx lv ctx1 h
    constructor <;>
      · rcases h2 : eval r ctx1 with _ | ⟨rv, ctx2⟩ <;>
          simp [eval, evalInfixOp, h, h2]
  · intro p q h
    cases p <;> cases q <;>
      simp_all [Primitive.isBoolean, Primitive.logicaland, Primitive.logicalor]

/-- C6 witness: `1 == 2 || 1 == 1` — a true right operand is reached and
applied even though the left is false; and `&&` on two Numbers is fatal. -/
theorem logical_ops_witness :
    eval (.InfixExpr (.InfixExpr (.Number 1) .Equal (.Number 2)) .LogicalOr
        (.InfixExpr (.Number 1) .Equal (.Number 1))) emptyCtx =
      some (.Boolean true, emptyCtx) ∧
    Primitive.logicaland (.Number 1) (.Number 1) = none := by
  constructor
  · have h := (logical_ops_no_short_circuit.1
        (.InfixExpr (.Number 1) .Equal (.Number 2))
        (.InfixExpr (.Number 1) .Equal (.Number 1))
        emptyCtx (.Boolean false) emptyCtx rfl).2
    rw [h]
    rfl
  · exact (logical_ops_no_short_circuit.2.1 _ _ (by simp [Primitive.isBoolean])).1

/-- C7: an identifier absent from the environment evaluates to
`Number(0.0)` without failing, for every name and environment. -/
theorem unbound_identifier_zero :
    ∀ (name : String) (ctx : Context), ctx.get name = none →
      eval (.Identifier name) ctx = some (.Number 0, ctx) := by
  intro name ctx h
  simp [eval, evalIdentifier, h]

/-- C7 witness: a fresh name in the empty environment. -/
theorem unbound_identifier_zero_witness :
    emptyCtx.get "y" = none ∧
    eval (.Identifier "y") emptyCtx = some (.Number 0, emptyCtx) :=
  ⟨rfl, unbound_identifier_zero "y" emptyCtx rfl⟩

/-- C8 counterexample: the input `(1 + 2` does contain an unterminated `(`
group, yet its parse succeeds with a full statement list — the number
recognizer swallows the `(` and `1` lexes as the identifier `1`. -/
theorem unterminated_paren_parses :
    parseBuf "(1 + 2" =
      some [Statement.Expr (.InfixExpr (.Identifier "1") .Plus (.Number 2))] :=
  rfl

/-- C8 (amended): `parse` yields `None` — no partial statement list —
whenever a statement fails to parse; a `print` statement whose expression
is followed by a token other than newline, end of input, or `}` fails the
whole input, and so does an unterminated group whose `(` is actually lexed
as an `LParen` token (e.g. with a space after it). -/
theorem parse_failure_propagation :
    (∀ (fuel : Nat) (st : ParserState), st.toks ≠ [] →
        parseStatement fuel st = none → parseProgram (fuel + 1) st = none) ∧
    parseBuf "( 1 + 2" = none ∧
    parseBuf "print 1 1" = none := by
  refine ⟨?_, rfl, rfl⟩
  intro fuel st h1 h2
  cases h3 : st.toks with
  | nil => exact absurd h3 h1
  | cons t ts =>
      have hc : curTok st = some t := by simp [curTok, h3]
      simp [parseProgram, hc, h2]

/-- C8 witness: the propagation clause at a concrete failing state. -/
theorem parse_failure_propagation_witness :
    parseStatement 0 ⟨[Token.NewLine], 0⟩ = none ∧
    parseProgram 1 ⟨[Token.NewLine], 0⟩ = none :=
  ⟨rfl, parse_failure_propagation.1 0 ⟨[Token.NewLine], 0⟩ (by simp) rfl⟩

/-- C9: every infix evaluation computes the left operand first and the
right operand second, both before the operator dispatch: a failing left
operand fails the whole expression for every operator (assignment
included), and so does a failing right operand after a successful left;
the left-hand side of a plain assignment is evaluated and its value
discarded.  Concretely `x + (x = 2)` from an empty environment is 2
(left `x` read as 0 before the right operand assigns 2), and the fatal
type error inside the left operand of `(1 && 1) = 2` aborts evaluation. -/
theorem infix_eval_order :
    (∀ (operator : Operator) (l r : Expr) (ctx : Context),
        eval l ctx = none → eval (.InfixExpr l operator r) ctx = none) ∧
    (∀ (operator : Operator) (l r : Expr) (ctx : Context) (lv : Primitive)
        (ctx1 : Context),
        eval l ctx = some (lv, ctx1) → eval r ctx1 = none →
        eval (.InfixExpr l operator r) ctx = none) ∧
    (∀ (x : String) (e : Expr) (ctx : Context) (v : Primitive) (ctx1 : Context),
        eval e ctx = some (v, ctx1) →
        eval (.InfixExpr (.Identifier x) .Assign e) ctx = some (v, ctx1.insert x v)) ∧
    evalSingle "x + (x = 2)" = some (.Number 2) ∧
    eval (.InfixExpr (.InfixExpr (.Number 1) .LogicalAnd (.Number 1)) .Assign
        (.Number 2)) emptyCtx = none := by
  refine ⟨?_, ?_, ?_, rfl, rfl⟩
  · intro operator l r ctx h
    simp [eval, h]
  · intro operator l r ctx lv ctx1 h h2
    simp [eval, h, h2]
  · intro x e ctx v ctx1 h
    simp [eval, evalInfixOp, assign, h]

/-- C9 witness: the order clauses at concrete inputs (a postfix
subexpression is the always-fatal operand). -/
theorem infix_eval_order_witness :
    eval (.InfixExpr (.PostfixExpr (.Number 1) .Plus) .Assign (.Number 2)) emptyCtx =
        none ∧
    eval (.InfixExpr (.Number 1) .Plus (.PostfixExpr (.Number 1) .Plus)) emptyCtx =
        none := by
  constructor
  · exact infix_eval_order.1 .Assign (.PostfixExpr (.Number 1) .Plus) (.Number 2)
      emptyCtx rfl
  · exact infix_eval_order.2.1 .Plus (.Number 1) (.PostfixExpr (.Number 1) .Plus)
      emptyCtx (.Number 1) emptyCtx rfl rfl

/-- C10 counterexample: the lexer recognizes `for` in the buffer
`if 1 {\nfor ` (the token stream contains `Reserved(For)`), yet parsing the
buffer succeeds: the block loop exits on seeing end-of-input as the peek,
the `for` token is skipped without ever being parsed, and the program
parses to a single `if` statement. -/
theorem reserved_word_buffer_parses :
    (Token.Reserved .For) ∈ lex "if 1 \x7b\nfor ".toList ∧
    parseBuf "if 1 \x7b\nfor " = some [Statement.If (.Number 1) (.Block []) none] := by
  constructor
  · have e : lex "if 1 \x7b\nfor ".toList =
        [Token.Reserved .If, Token.Number 1, Token.LBrace, Token.NewLine,
         Token.Reserved .For] := rfl
    rw [e]
    simp
  · rfl

/-- C10 (amended): no statement-dispatch arm and no prefix rule accepts
`for`, `fn`, or `typeof`, so a statement whose current token is one of them
fails, and the whole parse from such a state yields `None`; but not every
buffer in which the lexer recognizes one of these words fails to parse,
since the token can be skipped unparsed (see the counterexample). -/
theorem reserved_token_rejected :
    ∀ r : Reserved, r = .For ∨ r = .Fn ∨ r = .Typeof →
      ∀ (fuel : Nat) (st : ParserState), curTok st = some (.Reserved r) →
        parsePrefix fuel st = none ∧
        parseStatement fuel st = none ∧
        parseProgram (fuel + 1) st = none := by
  intro r hr fuel st h
  have hp : ∀ f : Nat, parsePrefix f st = none := by
    intro f
    cases f with
    | zero => rfl
    | succ f => rcases hr with rfl | rfl | rfl <;> simp [parsePrefix, h]
  have he : ∀ (f : Nat) (prec : Precedence), parseExpr f prec st = none := by
    intro f prec
    cases f with
    | zero => rfl
    | succ f => simp [parseExpr, hp f]
  have hs : parseStatement fuel st = none := by
    cases fuel with
    | zero => rfl
    | succ f => rcases hr with rfl | rfl | rfl <;> simp [parseStatement, h, he f]
  refine ⟨hp fuel, hs, ?_⟩
  simp [parseProgram, h, hs]

/-- C10 witness: the rejection clauses at a concrete state. -/
theorem reserved_token_rejected_witness :
    parseStatement 5 ⟨[Token.Reserved .For], 0⟩ = none ∧
    parseProgram 6 ⟨[Token.Reserved .For], 0⟩ = none := by
  have h := reserved_token_rejected .For (Or.inl rfl) 5 ⟨[Token.Reserved .For], 0⟩ rfl
  exact ⟨h.2.1, h.2.2⟩
